import Mathlib

/-!
Verification of the Debate Orchestration & Conclusion Synthesis Engine
(`api/app/utils/debate_manager.py`, `api/app/services/debate_service.py`,
`api/app/services/llm_service.py`, `api/app/models/schemas.py`,
`api/app/models/debate.py`).

The Python code is shallowly embedded: dictionaries become structures,
JSON values become an inductive type together with an executable parser
modelling `json.loads`, the round loop becomes a recursive function that
also emits the list of persistence-sink calls (progress updates, message
saves, status changes) in program order, and every `try/except` becomes a
match on an `Except` value supplied by an oracle standing for the external
generation capability or the database.  Timestamps (`datetime.now()` /
`datetime.utcnow()`) are modelled by a monotone counter, and `updated_at`
refreshes by a counter bump.  Python `str.strip()` and the regex class
`\s` are modelled over the ASCII whitespace characters they share.
-/

namespace Spec2Proof

/-- One entry of `DebateManager.conversation_history` (the `msg_data`
dictionary built in `run_debate_rounds`, debate_manager.py lines 50-57
and 83-90): agent display name, agent id, role, 1-based round number,
response text and a timestamp (modelled as a monotone counter). -/
structure MsgData where
  agent : String
  agentId : String
  role : String
  round : Nat
  response : String
  timestamp : Nat
deriving Repr, DecidableEq

/-- An AgentScope `Msg` as used by `get_agent_response`
(debate_manager.py lines 118-123): name, role, content, timestamp. -/
structure Msg where
  name : String
  role : String
  content : String
  timestamp : Nat
deriving Repr, DecidableEq

/-- Conversion of a history entry to a `Msg` performed inside the
history loop of `get_agent_response` (debate_manager.py lines 118-123):
the name is the agent display name, the role is always "user", the
content is the recorded response. -/
def msgOf (m : MsgData) : Msg :=
  { name := m.agent, role := "user", content := m.response, timestamp := m.timestamp }

/-- The history entries selected by `get_agent_response` for a turn in
round `roundNum`: the loop at debate_manager.py lines 115-124 keeps
exactly the entries with `msg['round'] < round_num`, in history order. -/
def visibleData (history : List MsgData) (roundNum : Nat) : List MsgData :=
  history.filter (fun m => decide (m.round < roundNum))

/-- The `history_msgs` list assembled by `get_agent_response`
(debate_manager.py lines 114-124): the visible entries converted to
`Msg` objects, in history order. -/
def buildHistoryMsgs (history : List MsgData) (roundNum : Nat) : List Msg :=
  (visibleData history roundNum).map msgOf

/-- The possible shapes of the value returned by `agent.reply(...)`, as
distinguished by the normalization chain of `get_agent_response`
(debate_manager.py lines 147-180): `None`, a plain string, a `Msg`
object (whose `content` may be `None`), an object exposing
`get_text_content()` (which may itself raise, carrying the rendered
`str(type(response))` in the error), an object exposing `.text`, a
dictionary, or anything else (carried as its `str(...)` rendering). -/
inductive Reply where
  | noneR : Reply
  | strR (s : String) : Reply
  | msgR (content : Option String) : Reply
  | textContentR (res : Except String String) : Reply
  | textAttrR (t : String) : Reply
  | dictR (entries : List (String × Option String)) : Reply
  | otherR (s : String) : Reply
deriving Repr

/-- Whitespace characters stripped by Python `str.strip()` and matched
by the regex class `\s` (restricted to ASCII, which is all the engine's
own literals use). -/
def isWs (c : Char) : Bool :=
  c = ' ' || c = '\t' || c = '\n' || c = '\r' || c = '\x0b' || c = '\x0c'

/-- Python `str.strip()`: drop leading and trailing whitespace. -/
def pyStripL (cs : List Char) : List Char :=
  ((cs.dropWhile isWs).reverse.dropWhile isWs).reverse

/-- Python `str.strip()` on a `String`. -/
def pyStrip (s : String) : String :=
  String.mk (pyStripL s.data)

/-- Python `str(e)[:500]`: the first 500 characters. -/
def pyTake (s : String) (n : Nat) : String :=
  String.mk (s.data.take n)

/-- Lookup of the first of the conventional content keys present (with a
non-`None` value) in a dictionary reply, per the loop at
debate_manager.py lines 172-175. -/
def dictContentLookup (entries : List (String × Option String)) : List String → Option String
  | [] => none
  | k :: ks =>
    match entries.lookup k with
    | some (some v) => some v
    | _ => dictContentLookup entries ks

/-- Rendering of a Python dict as `str(response)` (debate_manager.py
line 177).  The exact text of the CPython rendering is irrelevant to
every claim; this is a fixed executable stand-in for it. -/
def dictStr (entries : List (String × Option String)) : String :=
  "dict:" ++ String.intercalate "," (entries.map Prod.fst)

/-- The reply-normalization chain of `get_agent_response`
(debate_manager.py lines 146-180), producing the string stored as the
turn's response. -/
def normalizeReply : Reply → String
  | .noneR => "[無響應] Agent未返回任何內容"
  | .strR s => pyStrip s
  | .msgR (some c) => pyStrip c
  | .msgR none => "[響應格式錯誤] Msg對象缺少content字段"
  | .textContentR (.ok t) => pyStrip t
  | .textContentR (.error ty) => "[響應格式錯誤] 無法從響應中提取文本內容: " ++ ty
  | .textAttrR t => pyStrip t
  | .dictR entries =>
    match dictContentLookup entries ["content", "text", "message", "response"] with
    | some v => pyStrip v
    | none => dictStr entries
  | .otherR s => pyStrip s

/-- The error marker prefixed by the `except` branch of
`get_agent_response` (debate_manager.py line 186). -/
def turnErrMark : String := "[錯誤] 無法獲取響應: "

/-- `DebateManager.get_agent_response` (debate_manager.py lines
109-187), with the outcome of the `await agent.reply(...)` call supplied
as an `Except`: a raised exception is converted to a tagged error string
whose exception text is truncated to 500 characters (`str(e)[:500]`);
a returned reply goes through the normalization chain. -/
def getAgentResponse (outcome : Except String Reply) : String :=
  match outcome with
  | .error e => turnErrMark ++ pyTake e 500
  | .ok r => normalizeReply r

/-- The possible shapes of the moderator's `reply` result, as
distinguished by `_get_moderator_summary` (debate_manager.py lines
302-304): a `Msg` object (whose `content` may be `None`, rendered by
`str(...)` as "None") or anything else, carried as `str(response)`. -/
inductive ModReply where
  | msgR (content : Option String) : ModReply
  | otherR (s : String) : ModReply
deriving Repr

/-- The error marker prefixed by the `except` branch of
`_get_moderator_summary` (debate_manager.py line 308).  Note: unlike the
participant path, the exception text here is NOT truncated. -/
def modErrMark : String := "[錯誤] 無法獲取主持人總結: "

/-- `DebateManager._get_moderator_summary` (debate_manager.py lines
282-308): the moderator's reply is normalized, and a raised exception is
converted to a tagged error string carrying the full exception text. -/
def moderatorSummary (outcome : Except String ModReply) : String :=
  match outcome with
  | .error e => modErrMark ++ e
  | .ok (.msgR (some c)) => pyStrip c
  | .ok (.msgR none) => pyStrip "None"
  | .ok (.otherR s) => pyStrip s

/-! ## JSON values and a model of `json.loads`

`llm_service.generate_structured_output` and
`debate_manager.generate_conclusion` manipulate the result of
`json.loads`.  JSON values are embedded as an inductive type (numbers
keep their source lexeme — no claim depends on numeric semantics) and
`json.loads` as an executable recursive-descent parser over the JSON
grammar that CPython's strict decoder accepts: objects, arrays, strings
with the standard escapes and no literal control characters, numbers,
`true`/`false`/`null` and the CPython extensions `NaN`/`Infinity`.
Object literals follow dict insertion semantics (a repeated key keeps
its first position and the latest value). -/

inductive Json where
  | null : Json
  | boolJ (b : Bool) : Json
  | num (lexeme : String) : Json
  | str (s : String) : Json
  | arr (elems : List Json) : Json
  | obj (kvs : List (String × Json)) : Json
deriving Repr

/-- JSON inter-token whitespace accepted by `json.loads`. -/
def isJsonWs (c : Char) : Bool :=
  c = ' ' || c = '\t' || c = '\n' || c = '\r'

/-- Skip inter-token whitespace. -/
def skipJsonWs (cs : List Char) : List Char :=
  cs.dropWhile isJsonWs

/-- Value of a hex digit, if any. -/
def hexVal (c : Char) : Option Nat :=
  if '0' ≤ c ∧ c ≤ '9' then some (c.toNat - '0'.toNat)
  else if 'a' ≤ c ∧ c ≤ 'f' then some (c.toNat - 'a'.toNat + 10)
  else if 'A' ≤ c ∧ c ≤ 'F' then some (c.toNat - 'A'.toNat + 10)
  else none

/-- Decode one JSON string literal body (the opening quote already
consumed), accumulating decoded characters; literal control characters
are rejected as in CPython's strict decoder.  A `\uXXXX` escape is
decoded through `Char.ofNat` (surrogate pairs are not recombined; no
claim input uses them). -/
def parseStrBody (acc : List Char) : List Char → Option (String × List Char)
  | [] => none
  | '\\' :: esc :: rest =>
    match esc with
    | '"' => parseStrBody ('"' :: acc) rest
    | '\\' => parseStrBody ('\\' :: acc) rest
    | '/' => parseStrBody ('/' :: acc) rest
    | 'b' => parseStrBody ('\x08' :: acc) rest
    | 'f' => parseStrBody ('\x0c' :: acc) rest
    | 'n' => parseStrBody ('\n' :: acc) rest
    | 'r' => parseStrBody ('\r' :: acc) rest
    | 't' => parseStrBody ('\t' :: acc) rest
    | 'u' =>
      match rest with
      | h1 :: h2 :: h3 :: h4 :: rest2 =>
        match hexVal h1, hexVal h2, hexVal h3, hexVal h4 with
        | some v1, some v2, some v3, some v4 =>
          parseStrBody (Char.ofNat (((v1 * 16 + v2) * 16 + v3) * 16 + v4) :: acc) rest2
        | _, _, _, _ => none
      | _ => none
    | _ => none
  | '"' :: rest => some (String.mk acc.reverse, rest)
  | c :: rest =>
    if c.toNat < 0x20 then none else parseStrBody (c :: acc) rest

/-- Digits `0-9`. -/
def isDigitCh (c : Char) : Bool := '0' ≤ c && c ≤ '9'

/-- One-or-more digits: returns them and the remainder. -/
def takeDigits (cs : List Char) : Option (List Char × List Char) :=
  let ds := cs.takeWhile isDigitCh
  if ds.isEmpty then none else some (ds, cs.drop ds.length)

/-- The integer part of a JSON number after an optional minus sign:
a single `0`, or a nonzero digit followed by digits. -/
def parseIntPart (cs : List Char) : Option (List Char × List Char) :=
  match cs with
  | '0' :: rest => some (['0'], rest)
  | c :: _ =>
    if isDigitCh c then takeDigits cs else none
  | [] => none

/-- Optional fraction part `.digits`. -/
def parseFracPart (cs : List Char) : Option (List Char × List Char) :=
  match cs with
  | '.' :: rest =>
    match takeDigits rest with
    | some (ds, rest2) => some ('.' :: ds, rest2)
    | none => none
  | _ => some ([], cs)

/-- Exponent digits with an optional sign: `[+-]?digits`. -/
def parseSignedDigits (cs : List Char) : Option (List Char × List Char) :=
  match cs with
  | '+' :: rest =>
    match takeDigits rest with
    | some (ds, rest2) => some ('+' :: ds, rest2)
    | none => none
  | '-' :: rest =>
    match takeDigits rest with
    | some (ds, rest2) => some ('-' :: ds, rest2)
    | none => none
  | _ =>
    match takeDigits cs with
    | some (ds, rest2) => some (ds, rest2)
    | none => none

/-- The number grammar accepted by `json.loads` (plus the CPython
`Infinity` extension after a minus sign handled by the caller). -/
def parseNumber (cs : List Char) : Option (String × List Char) :=
  let (negPart, cs1) :=
    match cs with
    | '-' :: rest => (['-'], rest)
    | _ => (([] : List Char), cs)
  match parseIntPart cs1 with
  | none => none
  | some (ip, cs2) =>
    match parseFracPart cs2 with
    | none => none
    | some (fp, cs3) =>
      match cs3 with
      | 'e' :: rest =>
        match parseSignedDigits rest with
        | some (ep, cs4) => some (String.mk (negPart ++ ip ++ fp ++ 'e' :: ep), cs4)
        | none => none
      | 'E' :: rest =>
        match parseSignedDigits rest with
        | some (ep, cs4) => some (String.mk (negPart ++ ip ++ fp ++ 'E' :: ep), cs4)
        | none => none
      | _ => some (String.mk (negPart ++ ip ++ fp), cs3)

/-- Python dict insertion: a repeated key keeps its original position
and takes the latest value, as when `json.loads` builds an object. -/
def dictInsert (kvs : List (String × Json)) (k : String) (v : Json) : List (String × Json) :=
  match kvs with
  | [] => [(k, v)]
  | (k0, v0) :: rest =>
    if k0 = k then (k0, v) :: rest else (k0, v0) :: dictInsert rest k v

/-- Parse object members starting at a key, accumulating into `acc`;
the value parser is passed in (it will be the recursive occurrence of
`parseVal`). -/
def parseMembers (pv : List Char → Option (Json × List Char)) :
    Nat → List (String × Json) → List Char → Option (Json × List Char)
  | 0, _, _ => none
  | Nat.succ f, acc, cs =>
    match cs with
    | '"' :: rest =>
      match parseStrBody [] rest with
      | some (k, rest2) =>
        match skipJsonWs rest2 with
        | ':' :: rest3 =>
          match pv rest3 with
          | some (v, rest4) =>
            match skipJsonWs rest4 with
            | ',' :: rest5 => parseMembers pv f (dictInsert acc k v) (skipJsonWs rest5)
            | '\x7d' :: rest5 => some (.obj (dictInsert acc k v), rest5)
            | _ => none
          | none => none
        | _ => none
      | none => none
    | _ => none

/-- Parse array elements, accumulating into `acc` (reversed); the value
parser is passed in. -/
def parseElems (pv : List Char → Option (Json × List Char)) :
    Nat → List Json → List Char → Option (Json × List Char)
  | 0, _, _ => none
  | Nat.succ f, acc, cs =>
    match pv cs with
    | some (v, rest) =>
      match skipJsonWs rest with
      | ',' :: rest2 => parseElems pv f (v :: acc) rest2
      | ']' :: rest2 => some (.arr (v :: acc).reverse, rest2)
      | _ => none
    | none => none

/-- Parse one JSON value (leading whitespace allowed), fuel-indexed.
The fuel only bounds recursion depth; `parseJson` supplies enough for
any input of its length. -/
def parseVal : Nat → List Char → Option (Json × List Char)
  | 0, _ => none
  | Nat.succ f, cs =>
    match skipJsonWs cs with
    | '\x7b' :: rest =>
      (match skipJsonWs rest with
       | '\x7d' :: rest2 => some (.obj [], rest2)
       | cs' => parseMembers (parseVal f) (Nat.succ cs'.length) [] cs')
    | '[' :: rest =>
      (match skipJsonWs rest with
       | ']' :: rest2 => some (.arr [], rest2)
       | cs' => parseElems (parseVal f) (Nat.succ cs'.length) [] cs')
    | '"' :: rest =>
      (match parseStrBody [] rest with
       | some (s, rest2) => some (.str s, rest2)
       | none => none)
    | 't' :: 'r' :: 'u' :: 'e' :: rest => some (.boolJ true, rest)
    | 'f' :: 'a' :: 'l' :: 's' :: 'e' :: rest => some (.boolJ false, rest)
    | 'n' :: 'u' :: 'l' :: 'l' :: rest => some (.null, rest)
    | 'N' :: 'a' :: 'N' :: rest => some (.num "NaN", rest)
    | 'I' :: 'n' :: 'f' :: 'i' :: 'n' :: 'i' :: 't' :: 'y' :: rest => some (.num "Infinity", rest)
    | '-' :: 'I' :: 'n' :: 'f' :: 'i' :: 'n' :: 'i' :: 't' :: 'y' :: rest =>
      some (.num "-Infinity", rest)
    | cs' =>
      (match parseNumber cs' with
       | some (lex, rest) => some (.num lex, rest)
       | none => none)

/-- `json.loads`: parse a complete JSON document; trailing content other
than whitespace is an error ("Extra data"), as is any parse failure. -/
def parseJson (s : String) : Option Json :=
  match parseVal (2 * s.length + 8) s.data with
  | some (j, rest) => if skipJsonWs rest = [] then some j else none
  | none => none

/-! ## Structured-output recovery (`llm_service.generate_structured_output`)

Lines 184-232 of llm_service.py: first a fenced code block is extracted
from the reply text with `re.search(r'```\s*json\s*(.*?)\s*```', ...,
re.DOTALL)`, falling back to `re.search(r'```\s*(.*?)\s*```', ...)`;
then `json.loads` is attempted on the (stripped) text, with three
nested repair-and-retry attempts, and a degraded dictionary is returned
if everything fails.  The two regexes are modelled directly: a match
starts at the leftmost position where the full pattern matches, the
greedy `\s*` runs take maximal whitespace, and the lazy `(.*?)` group
ends at the first closing fence, with the trailing `\s*` giving up the
whitespace immediately before that fence. -/

/-- Split at the first occurrence of a closing fence "```": returns the
characters before it and the characters after it. -/
def splitAtFence : List Char → Option (List Char × List Char)
  | [] => none
  | c :: rest =>
    if "```".data.isPrefixOf (c :: rest) then some ([], rest.drop 2)
    else
      match splitAtFence rest with
      | some (before, after) => some (c :: before, after)
      | none => none

/-- Strip trailing regex-`\s` whitespace (the effect of the greedy
trailing `\s*` before the closing fence). -/
def rstripWs (cs : List Char) : List Char :=
  (cs.reverse.dropWhile isWs).reverse

/-- Try to match `` ```\s*json\s*(.*?)\s*``` `` starting exactly at the
given position; returns the captured group on success. -/
def matchJsonBlockAt (cs : List Char) : Option (List Char) :=
  if "```".data.isPrefixOf cs then
    let r1 := (cs.drop 3).dropWhile isWs
    if "json".data.isPrefixOf r1 then
      let r2 := (r1.drop 4).dropWhile isWs
      match splitAtFence r2 with
      | some (before, _) => some (rstripWs before)
      | none => none
    else none
  else none

/-- Try to match `` ```\s*(.*?)\s*``` `` starting exactly at the given
position; returns the captured group on success. -/
def matchAnyBlockAt (cs : List Char) : Option (List Char) :=
  if "```".data.isPrefixOf cs then
    let r1 := (cs.drop 3).dropWhile isWs
    match splitAtFence r1 with
    | some (before, _) => some (rstripWs before)
    | none => none
  else none

/-- `re.search`: the leftmost position where the pattern matches. -/
def searchWith (f : List Char → Option (List Char)) : List Char → Option (List Char)
  | [] => f []
  | c :: rest =>
    match f (c :: rest) with
    | some g => some g
    | none => searchWith f rest

/-- The code-block extraction of llm_service.py lines 186-194: the
group of the json-labelled fence if it matches, else the group of any
fence, else the text unchanged. -/
def extractBlock (s : String) : String :=
  match searchWith matchJsonBlockAt s.data with
  | some g => String.mk g
  | none =>
    match searchWith matchAnyBlockAt s.data with
    | some g => String.mk g
    | none => s

/-- First repair step (llm_service.py lines 206-210): strip leading
byte-order marks (`lstrip` of U+FEFF), strip whitespace, then drop any
remaining leading `'\n' '\r' ' ' '\t'` characters. -/
def bomRepair (t : String) : String :=
  String.mk ((pyStripL (t.data.dropWhile (fun c => c = '\ufeff'))).dropWhile
    (fun c => c = '\n' || c = '\r' || c = ' ' || c = '\t'))

/-- Python `str.replace(old, new)` for a single-character pattern and a
single-character replacement (the only form the engine uses), which is
exactly a character map. -/
def replaceChar (old new : Char) (t : String) : String :=
  String.mk (t.data.map (fun c => if c = old then new else c))

/-- Second repair step (llm_service.py line 220):
`text.replace('"', '"').replace('"', '"')` — both arguments are the
plain ASCII double quote, so the "curly quote fix" replaces a straight
quote with itself, twice: a no-op, translated literally. -/
def quoteRepair (t : String) : String :=
  replaceChar '\x22' '\x22' (replaceChar '\x22' '\x22' t)

/-- The scan of `re.sub(r'\n\s*', ' ', t)` (generalized over the lead
character for reuse with `\r`): each occurrence of the lead character
becomes a single space and the whitespace run following it is consumed
(`skipping = true`); `re.sub` replaces non-overlapping matches left to
right, so the scan resumes after the consumed run. -/
def subLeadWs (lead : Char) : Bool → List Char → List Char
  | _, [] => []
  | true, c :: rest =>
    if isWs c then subLeadWs lead true rest
    else if c = lead then ' ' :: subLeadWs lead true rest
    else c :: subLeadWs lead false rest
  | false, c :: rest =>
    if c = lead then ' ' :: subLeadWs lead true rest
    else c :: subLeadWs lead false rest

/-- Third repair step (llm_service.py lines 226-227): collapse newlines
and carriage returns (with their trailing whitespace runs) to single
spaces — `re.sub(r'\n\s*', ' ', ...)` then `re.sub(r'\r\s*', ' ', ...)`. -/
def collapseRepair (t : String) : String :=
  String.mk (subLeadWs '\r' false (subLeadWs '\n' false t.data))

/-- The result of the structured-output call: either a parsed JSON
value, or the degraded dictionary
`{"final_conclusion": text, "error": "无法解析为JSON: ..."}` of
llm_service.py line 232, identified by the fully-repaired text carried
in its `final_conclusion` field (the `error` value embeds the first
`JSONDecodeError`'s rendering, which no claim depends on). -/
inductive SynthOutcome where
  | parsed (j : Json) : SynthOutcome
  | degraded (finalConclusionText : String) : SynthOutcome
deriving Repr

/-- `LLMService.generate_structured_output`, lines 184-232, applied to
the normalized reply text: extract a fenced block, strip, then attempt
`json.loads` on the text, on the BOM/whitespace-repaired text, on the
quote-"repaired" text and on the newline-collapsed text, in that order,
stopping at the first success; if every attempt fails, return the
degraded dictionary carrying the final text. -/
def generateStructuredOutput (s : String) : SynthOutcome :=
  let t1 := pyStrip (extractBlock s)
  match parseJson t1 with
  | some j => .parsed j
  | none =>
    let t2 := bomRepair t1
    match parseJson t2 with
    | some j => .parsed j
    | none =>
      let t3 := quoteRepair t2
      match parseJson t3 with
      | some j => .parsed j
      | none =>
        let t4 := collapseRepair t3
        match parseJson t4 with
        | some j => .parsed j
        | none => .degraded t4

/-! ## Conclusion generation (`DebateManager.generate_conclusion`) -/

/-- Association lookup on an object's key-value list (Python
`dict.__getitem__` / membership; first match — objects built by the
parser have unique keys). -/
def lookupJ (kvs : List (String × Json)) (k : String) : Option Json :=
  match kvs with
  | [] => none
  | (k0, v) :: rest => if k0 = k then some v else lookupJ rest k

/-- Python `dict.get(k, default)`: the stored value if the key is
present (even if that value is `null`), else the default. -/
def jGetD (kvs : List (String × Json)) (k : String) (d : Json) : Json :=
  (lookupJ kvs k).getD d

/-- The six conclusion keys, in the order `generate_conclusion` builds
its result dictionary (debate_manager.py lines 234-241). -/
def sixKeys : List String :=
  ["final_conclusion", "confidence_score", "consensus_points",
   "divergent_views", "key_arguments", "preliminary_insights"]

/-- The per-field default used by `generate_conclusion` for a missing
key (debate_manager.py lines 235-240): a placeholder string for
`final_conclusion`, `0.0` for `confidence_score`, empty lists for the
three list fields, an empty dict for `key_arguments`. -/
def conclusionDefault : String → Json
  | "final_conclusion" => .str "無法生成結論"
  | "confidence_score" => .num "0.0"
  | "consensus_points" => .arr []
  | "divergent_views" => .arr []
  | "key_arguments" => .obj []
  | "preliminary_insights" => .arr []
  | _ => .null

/-- The fallback dictionary of the `except` branch of
`generate_conclusion` (debate_manager.py lines 246-253), with the
exception text interpolated into `final_conclusion`. -/
def conclusionErrDict (e : String) : Json :=
  .obj [("final_conclusion", .str ("結論生成失敗: " ++ e)),
        ("confidence_score", .num "0.0"),
        ("consensus_points", .arr []),
        ("divergent_views", .arr []),
        ("key_arguments", .obj []),
        ("preliminary_insights", .arr [])]

/-- The rendering of the `AttributeError` raised when `.get` is called
on a non-dict value returned by the structured-output call.  The exact
CPython message text is irrelevant to every claim; this is a fixed
executable stand-in. -/
def attrErrText : Json → String
  | .null => "NoneType object has no attribute get"
  | .boolJ _ => "bool object has no attribute get"
  | .num _ => "float object has no attribute get"
  | .str _ => "str object has no attribute get"
  | .arr _ => "list object has no attribute get"
  | .obj _ => "dict object has no attribute get"

/-- `DebateManager.generate_conclusion` (debate_manager.py lines
189-253), with the outcome of the
`llm_service.generate_structured_output(...)` call supplied as an
`Except`.  On a returned dict, the six fields are filled with
`conclusion_data.get(key, default)`; on a returned non-dict, the `.get`
attribute access raises and is caught by the same `except` branch as a
generation failure; on a raised exception the fallback dictionary is
returned.  In every case the result is a dictionary with exactly the
six conclusion keys. -/
def generateConclusion (synth : Except String Json) : Json :=
  match synth with
  | .error e => conclusionErrDict e
  | .ok (.obj kvs) =>
    .obj [("final_conclusion", jGetD kvs "final_conclusion" (.str "無法生成結論")),
          ("confidence_score", jGetD kvs "confidence_score" (.num "0.0")),
          ("consensus_points", jGetD kvs "consensus_points" (.arr [])),
          ("divergent_views", jGetD kvs "divergent_views" (.arr [])),
          ("key_arguments", jGetD kvs "key_arguments" (.obj [])),
          ("preliminary_insights", jGetD kvs "preliminary_insights" (.arr []))]
  | .ok j => conclusionErrDict (attrErrText j)

/-- The keys of a JSON object (empty for non-objects). -/
def objKeys : Json → List String
  | .obj kvs => kvs.map Prod.fst
  | _ => []

/-- The value at a key of a JSON object. -/
def objLookup (j : Json) (k : String) : Option Json :=
  match j with
  | .obj kvs => lookupJ kvs k
  | _ => none

/-! ## Message persistence (`DebateService.save_debate_message`) -/

/-- A `DebateMessage` row as built by `save_debate_message`
(debate_service.py lines 468-476): agent id, display name, role,
1-based round number, content and a timestamp (the session id column is
constant within one run and omitted). -/
structure DbRow where
  agentId : String
  agentName : String
  agentRole : String
  roundNumber : Nat
  content : String
  timestamp : Nat
deriving Repr, DecidableEq

/-- The error marker prefixed to the content of the unpersisted message
object returned by the `except` branch of `save_debate_message`
(debate_service.py line 495). -/
def saveErrMark : String := "[错误] 无法保存消息: "

/-- `DebateService.save_debate_message` (debate_service.py lines
461-497), with the outcome of the `db.add/commit/refresh` supplied as
an `Except` and the persisted table as a list of rows.  On success the
row is appended and returned; on a database error the transaction is
rolled back (the table is unchanged) and an unpersisted message object
with an error-tagged content is returned.  The function always returns
normally. -/
def saveDebateMessage (dbOutcome : Except String Unit) (store : List DbRow)
    (row : DbRow) : List DbRow × DbRow :=
  match dbOutcome with
  | .ok _ => (store ++ [row], row)
  | .error e => (store, { row with content := saveErrMark ++ e })

/-! ## The round loop (`DebateManager.run_debate_rounds`)

The loop at debate_manager.py lines 21-107 is embedded as a recursive
function over the remaining rounds.  The calls into the external world
are reified: the generation capability is an oracle (a function from
the turn's position and assembled context to the call's outcome), the
database outcome of each message save is an oracle on the row, and the
persistence-sink calls are emitted as an event list in program order.
Timestamps are modelled by the history length at message creation,
which is strictly monotone. -/

/-- A debate participant or moderator as the manager sees it
(`agent.name`, `agent.id`, `agent.role`, debate_manager.py
lines 45-47). -/
structure Agent where
  name : String
  id : String
  role : String
deriving Repr, DecidableEq

/-- The configuration of one debate run (`DebateManager.__init__`):
participants in speaking order, topic, number of rounds, optional
moderator. -/
structure RunCfg where
  agents : List Agent
  topic : String
  rounds : Nat
  moderator : Option Agent
deriving Repr

/-- The oracles standing for the external collaborators: the per-turn
generation call (round number, agent id, assembled context), the
moderator summarization call (round number, this round's messages) and
the database outcome of each save. -/
structure Oracles where
  turns : Nat → String → List Msg → Except String Reply
  mods : Nat → List MsgData → Except String ModReply
  saves : DbRow → Except String Unit

/-- A persistence-sink call, in program order: a progress push
(`update_debate_progress`, with the raw value before clamping), a
message save (`save_debate_message`, with the row passed in), a status
write (`update_debate_status` / direct status assignment), or the final
completion commit of `run_debate` step 7 (which writes conclusion
fields, progress = 100 and status = "completed" in one commit). -/
inductive Event where
  | progress (value : ℚ) : Event
  | save (row : DbRow) : Event
  | statusSet (s : String) : Event
  | complete : Event
deriving Repr, DecidableEq

/-- The participant turns of one round (debate_manager.py lines 40-74):
for each agent in order, assemble the context from the current history,
obtain the response, append the message to the history (and to this
round's list), and persist it.  Returns the new history, this round's
new messages, the persisted table and the emitted events. -/
def runTurns (O : Oracles) (r : Nat) :
    List Agent → List MsgData → List DbRow →
    List MsgData × List MsgData × List DbRow × List Event
  | [], hist, store => (hist, [], store, [])
  | a :: rest, hist, store =>
    let ctx := buildHistoryMsgs hist r
    let resp := getAgentResponse (O.turns r a.id ctx)
    let m : MsgData :=
      { agent := a.name, agentId := a.id, role := a.role, round := r,
        response := resp, timestamp := hist.length }
    let row : DbRow :=
      { agentId := a.id, agentName := a.name, agentRole := a.role,
        roundNumber := r, content := resp, timestamp := m.timestamp }
    let store1 := (saveDebateMessage (O.saves row) store row).1
    let res := runTurns O r rest (hist ++ [m]) store1
    (res.1, m :: res.2.1, res.2.2.1, Event.save row :: res.2.2.2)

/-- One full round `r` (debate_manager.py lines 23-105): push the
progress value `((r) / rounds) * 90` first (lines 25-29), then run the
participant turns, then, if a moderator is configured, obtain and
persist the moderator summary of this round's messages (lines 76-105). -/
def roundBlock (cfg : RunCfg) (O : Oracles) (r : Nat) (hist : List MsgData)
    (store : List DbRow) : List MsgData × List DbRow × List Event :=
  let evProg := Event.progress ((r : ℚ) / (cfg.rounds : ℚ) * 90)
  let res := runTurns O r cfg.agents hist store
  match cfg.moderator with
  | none => (res.1, res.2.2.1, evProg :: res.2.2.2)
  | some mod =>
    let summary := moderatorSummary (O.mods r res.2.1)
    let mm : MsgData :=
      { agent := mod.name, agentId := mod.id, role := "moderator", round := r,
        response := summary, timestamp := res.1.length }
    let row : DbRow :=
      { agentId := mod.id, agentName := mod.name, agentRole := "moderator",
        roundNumber := r, content := summary, timestamp := mm.timestamp }
    let store2 := (saveDebateMessage (O.saves row) res.2.2.1 row).1
    (res.1 ++ [mm], store2, evProg :: (res.2.2.2 ++ [Event.save row]))

/-- The rounds from `r` on, for `fuel` remaining rounds. -/
def runFrom (cfg : RunCfg) (O : Oracles) :
    Nat → Nat → List MsgData → List DbRow →
    List MsgData × List DbRow × List Event
  | _, 0, hist, store => (hist, store, [])
  | r, Nat.succ fuel, hist, store =>
    let b := roundBlock cfg O r hist store
    let res := runFrom cfg O (r + 1) fuel b.1 b.2.1
    (res.1, res.2.1, b.2.2 ++ res.2.2)

/-- `DebateManager.run_debate_rounds` (debate_manager.py lines 21-107):
rounds 1 to `cfg.rounds` in order, starting from an empty history. -/
def runDebateRounds (cfg : RunCfg) (O : Oracles) :
    List MsgData × List DbRow × List Event :=
  runFrom cfg O 1 cfg.rounds [] []

/-! ## The orchestrator (`DebateService.run_debate`) and session record -/

/-- The mutable columns of a `Debate` row that the engine touches
(models/debate.py): status, progress, the six conclusion columns
(`none` = never assigned, `some v` = assigned the JSON value `v`,
which may itself be `Json.null`), and an `updated_at` refresh counter. -/
structure DebateRecord where
  status : String
  progress : ℚ
  finalConclusion : Option Json
  confidenceScore : Option Json
  consensusPoints : Option Json
  divergentViews : Option Json
  keyArguments : Option Json
  preliminaryInsights : Option Json
  updatedCount : Nat
deriving Repr

/-- A freshly created session row (`start_debate`, debate_service.py
lines 53-65): status "created", progress 0, no conclusion columns. -/
def newDebateRecord : DebateRecord :=
  { status := "created", progress := 0, finalConclusion := none,
    confidenceScore := none, consensusPoints := none, divergentViews := none,
    keyArguments := none, preliminaryInsights := none, updatedCount := 0 }

/-- Step 7 of `run_debate` (debate_service.py lines 437-447): write
status "completed", progress 100 and the six conclusion columns from
the conclusion dictionary in one commit.  `final_conclusion` uses
`conclusion_data.get("final_conclusion")` with no default; the other
five use `.get(key, default)`. -/
def applyConclusion (j : Json) (rec : DebateRecord) : DebateRecord :=
  { rec with
    status := "completed",
    progress := 100,
    finalConclusion := objLookup j "final_conclusion",
    confidenceScore := some ((objLookup j "confidence_score").getD (.num "0.0")),
    consensusPoints := some ((objLookup j "consensus_points").getD (.arr [])),
    divergentViews := some ((objLookup j "divergent_views").getD (.arr [])),
    keyArguments := some ((objLookup j "key_arguments").getD (.obj [])),
    preliminaryInsights := some ((objLookup j "preliminary_insights").getD (.arr [])),
    updatedCount := rec.updatedCount + 1 }

/-- The outcome of steps 2-6 of `run_debate` (agent setup, the round
loop and the structured-output call): either every step returned and
the structured-output call produced `synth` (fed to
`generate_conclusion`, which never raises), or some exception escaped
(e.g. a persistence-sink failure inside the round loop). -/
inductive BodyOutcome where
  | success (synth : Except String Json) : BodyOutcome
  | raised (e : String) : BodyOutcome

/-- `DebateService.run_debate` (debate_service.py lines 388-457) at the
record level: step 1 sets status "running" (with an `updated_at`
refresh); on success, `generate_conclusion` output is written by step 7;
on any exception escaping steps 2-6, the `except` branch sets status
"failed" with an `updated_at` refresh and touches nothing else. -/
def runDebateOrch (b : BodyOutcome) (rec : DebateRecord) : DebateRecord :=
  let rec1 := { rec with status := "running", updatedCount := rec.updatedCount + 1 }
  match b with
  | .raised _ => { rec1 with status := "failed", updatedCount := rec1.updatedCount + 1 }
  | .success synth => applyConclusion (generateConclusion synth) rec1

/-! ## The observable progress/status state (`update_debate_progress`,
`update_debate_status`) -/

/-- `update_debate_progress` clamping (debate_service.py line 502):
`min(max(progress, 0.0), 100.0)`. -/
def clampProgress (p : ℚ) : ℚ := min (max p 0) 100

/-- The progress/status columns as the persistence sink sees them. -/
structure ObsState where
  progress : ℚ
  status : String
deriving Repr, DecidableEq

/-- Apply one persistence-sink call to the observable state: a progress
push stores the clamped value (debate_service.py lines 499-504); a
status write stores the status; the completion commit stores progress
100 and status "completed" together (lines 437-447); a message save
touches neither column. -/
def applyEvent (st : ObsState) : Event → ObsState
  | .progress v => { st with progress := clampProgress v }
  | .save _ => st
  | .statusSet s => { st with status := s }
  | .complete => { progress := 100, status := "completed" }

/-- Fold a list of sink calls over the fresh-session state
(progress 0, status "created"). -/
def foldObs (evs : List Event) : ObsState :=
  evs.foldl applyEvent { progress := 0, status := "created" }

/-- The two shapes of a full `run_debate` sink-call trace: the
successful path (status "running", the round events, then the
completion commit), or the failing path (status "running", a prefix of
the round events cut where the exception escaped, then status
"failed"). -/
def fullTrace (cfg : RunCfg) (O : Oracles) : Option Nat → List Event
  | none => Event.statusSet "running" :: ((runDebateRounds cfg O).2.2 ++ [Event.complete])
  | some n => Event.statusSet "running" :: ((runDebateRounds cfg O).2.2.take n ++ [Event.statusSet "failed"])

/-- The progress values pushed by a list of sink calls, in order. -/
def progressValues (evs : List Event) : List ℚ :=
  evs.filterMap (fun e => match e with | .progress v => some v | _ => none)

/-! ## Validation (`DebateStartRequest`, schemas.py lines 45-66) and
session creation gating -/

/-- A raw `Start` configuration as received by the API layer
(schemas.py lines 45-53): topic, participant ids, the (required)
moderator id, rounds. -/
structure StartRequest where
  topic : String
  agent_ids : List String
  moderator_id : String
  rounds : Int
deriving Repr, DecidableEq

/-- The pydantic validation of `DebateStartRequest` (schemas.py lines
45-66), which runs before `DebateService.start_debate` is entered:
`topic` has `min_length=5`; `agent_ids` has `min_length=2`,
`max_length=8` and no duplicates (`len(v) != len(set(v))` is modelled
with `List.dedup`); `moderator_id` must not be one of `agent_ids`;
`rounds` has `ge=1`, `le=10`.  Any violation rejects the request. -/
def validateStartRequest (r : StartRequest) : Except String Unit :=
  if r.topic.length < 5 then .error "topic: String should have at least 5 characters"
  else if r.agent_ids.length < 2 then .error "agent_ids: List should have at least 2 items"
  else if 8 < r.agent_ids.length then .error "agent_ids: List should have at most 8 items"
  else if r.agent_ids.dedup.length ≠ r.agent_ids.length then .error "辯論員的ID不可重複 (Agent IDs must be unique)"
  else if r.moderator_id ∈ r.agent_ids then .error "主持人不能同時是辯論員 (Moderator cannot be a debater)"
  else if r.rounds < 1 then .error "rounds: Input should be greater than or equal to 1"
  else if 10 < r.rounds then .error "rounds: Input should be less than or equal to 10"
  else .ok ()

/-- The `Start` entry point as the API layer exposes it: the request is
validated by the schema layer first; only a validated request reaches
`start_debate`, which appends the newly created session to the store
(debate_service.py lines 52-69).  A validation failure returns before
any session is created. -/
def apiStartDebate (r : StartRequest) (store : List DebateRecord) :
    List DebateRecord × Except String Unit :=
  match validateStartRequest r with
  | .error e => (store, .error e)
  | .ok _ => (store ++ [newDebateRecord], .ok ())

/-! ## Cancellation (`DebateService.cancel_debate`) -/

/-- The terminal-status test of `cancel_debate` (debate_service.py line
518): status in {completed, failed, expired}. -/
def isTerminalStatus (s : String) : Bool :=
  s = "completed" || s = "failed" || s = "expired"

/-- `DebateService.cancel_debate` (debate_service.py lines 513-530):
on a terminal session the operation raises (the record is untouched);
otherwise the status is set to "failed" (the cancellation outcome) with
an `updated_at` refresh. -/
def cancelDebate (d : DebateRecord) : DebateRecord × Except String Unit :=
  if isTerminalStatus d.status then
    (d, .error ("辩论已经" ++ d.status ++ "，无法取消"))
  else
    ({ d with status := "failed", updatedCount := d.updatedCount + 1 }, .ok ())

/-! ## Spec-worded formulations of the recovery cascade (for C4)

Two further cascade definitions follow the SPEC's words, not the
source, so that the source-translated `generateStructuredOutput` can be
compared against them. -/

/-- The first `some` in a list of attempts. -/
def firstSome : List (Option Json) → Option Json
  | [] => none
  | some j :: _ => some j
  | none :: rest => firstSome rest

/-- The recovery cascade exactly as claim C4 words it: the first
successful JSON parse among (a) the inner content of a json-labelled
fenced block, (b) the inner content of any fenced block, (c) the
trimmed raw text, (d) the raw text after light repairs (BOM strip,
leading-whitespace trim, curly-quote normalization), (e) then after
collapsing newlines/carriage returns to spaces; if every attempt fails,
a degraded result whose `final_conclusion` is the raw text itself. -/
def specClaimCascade (s : String) : SynthOutcome :=
  let repaired := String.mk ((pyStripL (s.data.dropWhile (fun c => c = '\ufeff'))))
  let curly := (repaired.replace "“" "\x22").replace "”" "\x22"
  match firstSome
    [(searchWith matchJsonBlockAt s.data).bind (fun g => parseJson (String.mk g)),
     (searchWith matchAnyBlockAt s.data).bind (fun g => parseJson (String.mk g)),
     parseJson (pyStrip s),
     parseJson curly,
     parseJson (collapseRepair curly)] with
  | some j => .parsed j
  | none => .degraded s

/-- The recovery cascade as the amended claim words it: a working text
is selected once — the inner content of the first json-labelled fenced
block if one matches, else of the first fenced block, else the raw text
— and the first successful JSON parse among the stripped working text,
its BOM/leading-whitespace repair, its (no-op) quote repair and its
newline collapse is returned; if every parse fails, the degraded result
carries the fully-repaired working text, not the raw reply. -/
def amendedCascade (s : String) : SynthOutcome :=
  let t1 := pyStrip (extractBlock s)
  let t2 := bomRepair t1
  let t3 := quoteRepair t2
  let t4 := collapseRepair t3
  match firstSome [parseJson t1, parseJson t2, parseJson t3, parseJson t4] with
  | some j => .parsed j
  | none => .degraded t4

/-! ## Claim-level predicates and concrete fixtures -/

/-- A `Start` configuration rejected by claim C6: duplicate participant
ids, fewer than 2 or more than 8 participants, moderator among the
participants, rounds outside [1,10], or an empty topic. -/
def badStartConfig (r : StartRequest) : Prop :=
  ¬r.agent_ids.Nodup ∨ r.agent_ids.length < 2 ∨ 8 < r.agent_ids.length ∨
  r.moderator_id ∈ r.agent_ids ∨ r.rounds < 1 ∨ 10 < r.rounds ∨ r.topic = ""

/-- All six conclusion columns unassigned. -/
def conclusionColsNone (d : DebateRecord) : Prop :=
  d.finalConclusion.isNone = true ∧ d.confidenceScore.isNone = true ∧
  d.consensusPoints.isNone = true ∧ d.divergentViews.isNone = true ∧
  d.keyArguments.isNone = true ∧ d.preliminaryInsights.isNone = true

/-- All six conclusion columns assigned. -/
def conclusionColsSome (d : DebateRecord) : Prop :=
  d.finalConclusion.isSome = true ∧ d.confidenceScore.isSome = true ∧
  d.consensusPoints.isSome = true ∧ d.divergentViews.isSome = true ∧
  d.keyArguments.isSome = true ∧ d.preliminaryInsights.isSome = true

/-- A sink call that cannot raise the stored progress above 90: a
progress push of a value at most 90, a message save, or a status
write.  Every call emitted by the round loop is of this kind. -/
def eventKeepsLow : Event → Prop
  | .progress v => v ≤ 90
  | .save _ => True
  | .statusSet _ => True
  | .complete => False

/-- Fixture: a participant. -/
def agentA : Agent := { name := "甲分析師", id := "a1", role := "pro" }

/-- Fixture: a second participant. -/
def agentB : Agent := { name := "乙分析師", id := "b1", role := "con" }

/-- Fixture: a 1-round, 1-participant configuration without moderator. -/
def cfgOne : RunCfg := { agents := [agentA], topic := "題目一", rounds := 1, moderator := none }

/-- Fixture: a 2-round, 1-participant configuration without moderator. -/
def cfgTwo : RunCfg := { agents := [agentA], topic := "題目二", rounds := 2, moderator := none }

/-- Fixture: oracles whose generation calls return plain strings and
whose saves succeed. -/
def oraclesOk : Oracles :=
  { turns := fun _ _ _ => .ok (.strR "觀點"),
    mods := fun _ _ => .ok (.otherR "總結"),
    saves := fun _ => .ok () }

/-- Fixture: the same generation calls, but every save fails. -/
def oraclesSaveFail : Oracles :=
  { turns := fun _ _ _ => .ok (.strR "觀點"),
    mods := fun _ _ => .ok (.otherR "總結"),
    saves := fun _ => .error "db down" }

/-- Fixture: a round-1 history entry. -/
def msgRound1 : MsgData :=
  { agent := "甲分析師", agentId := "a1", role := "pro", round := 1,
    response := "第一輪發言", timestamp := 0 }

/-- Fixture: a round-2 history entry. -/
def msgRound2 : MsgData :=
  { agent := "乙分析師", agentId := "b1", role := "con", round := 2,
    response := "第二輪發言", timestamp := 1 }

/-- Fixture: an exception text of 501 characters, longer than the
500-character truncation bound. -/
def longExc : String := String.mk (List.replicate 501 'x')

/-- Fixture: a completed session record. -/
def recCompleted : DebateRecord := { newDebateRecord with status := "completed" }

/-- Fixture: a request with a duplicated participant id. -/
def reqDup : StartRequest :=
  { topic := "值得辯論的主題", agent_ids := ["a1", "a1"], moderator_id := "m1", rounds := 3 }

/-- Fixture (C4): a reply that is itself valid JSON but contains a
json-labelled fence inside a string value. -/
def cexInput : String := "\x7b\x22a\x22: \x22x ```json b ``` y\x22\x7d"

/-- Fixture (C4): the JSON value of `cexInput`. -/
def cexParsed : Json := .obj [("a", .str "x ```json b ``` y")]

/-! ## Helper lemmas -/

/-- The history returned by the participant loop is the incoming
history with this round's new messages appended, in speaking order. -/
theorem runTurns_hist (O : Oracles) (r : Nat) (as : List Agent)
    (hist : List MsgData) (store : List DbRow) :
    (runTurns O r as hist store).1 = hist ++ (runTurns O r as hist store).2.1 := by
  induction as generalizing hist store with
  | nil => simp [runTurns]
  | cons a rest ih =>
    simp only [runTurns]
    rw [ih]
    simp

/-- Every event emitted by the participant loop is a message save. -/
theorem runTurns_saves (O : Oracles) (r : Nat) (as : List Agent)
    (hist : List MsgData) (store : List DbRow) :
    ∀ e ∈ (runTurns O r as hist store).2.2.2, ∃ row, e = Event.save row := by
  induction as generalizing hist store with
  | nil => simp [runTurns]
  | cons a rest ih =>
    simp only [runTurns, List.mem_cons]
    intro e he
    rcases he with rfl | he
    · exact ⟨_, rfl⟩
    · exact ih _ _ e he

/-- A key present in an object's key list has a value. -/
theorem lookupJ_isSome (kvs : List (String × Json)) (k : String)
    (h : k ∈ kvs.map Prod.fst) : (lookupJ kvs k).isSome = true := by
  induction kvs with
  | nil => simp at h
  | cons kv rest ih =>
    simp only [List.map_cons, List.mem_cons] at h
    by_cases hk : kv.1 = k
    · simp [lookupJ, hk]
    · rcases h with h | h
      · exact absurd h.symm hk
      · simpa [lookupJ, hk] using ih h

/-! ## Claim C1 -/

/-- Claim C1 (context visibility): the history assembled for a
participant turn in round `r` is exactly the sublist of the
conversation history whose entries have round number strictly below
`r`, in history order; in particular, when the history consists of the
complete earlier rounds (`pre`, all with round < r) followed by
messages produced earlier in the same round (`cur`, all with round =
r), the assembled context is exactly `pre`, converted to messages — no
same-round message is visible. -/
theorem context_visibility (hist : List MsgData) (r : Nat) :
    (visibleData hist r).Sublist hist ∧
    (∀ m : MsgData, m ∈ visibleData hist r ↔ m ∈ hist ∧ m.round < r) ∧
    (∀ pre cur : List MsgData,
      (∀ m ∈ pre, m.round < r) → (∀ m ∈ cur, m.round = r) → hist = pre ++ cur →
      visibleData hist r = pre ∧ buildHistoryMsgs hist r = pre.map msgOf) := by
  refine ⟨List.filter_sublist _, ?_, ?_⟩
  · intro m
    simp [visibleData, List.mem_filter]
  · intro pre cur hpre hcur hsplit
    subst hsplit
    have hvis : visibleData (pre ++ cur) r = pre := by
      unfold visibleData
      rw [List.filter_append]
      rw [List.filter_eq_self.mpr (fun m hm => by simpa using hpre m hm)]
      rw [List.filter_eq_nil_iff.mpr (fun m hm => by simp [hcur m hm])]
      simp
    exact ⟨hvis, by unfold buildHistoryMsgs; rw [hvis]⟩

/-- Witness for C1 at a concrete two-round history: for a turn in round
2, the assembled context is exactly the round-1 entry. -/
theorem context_visibility_witness :
    visibleData [msgRound1, msgRound2] 2 = [msgRound1] ∧
    buildHistoryMsgs [msgRound1, msgRound2] 2 = [msgOf msgRound1] :=
  (context_visibility [msgRound1, msgRound2] 2).2.2 [msgRound1] [msgRound2]
    (by decide) (by decide) rfl

/-! ## Claim C7 -/

/-- Claim C7 (cancel terminality): `cancel_debate` on a session whose
status is completed, failed or expired raises and leaves the record
unchanged; on a session in any non-terminal status it sets the status
to "failed" (refreshing `updated_at`). -/
theorem cancel_terminality (d : DebateRecord) :
    (isTerminalStatus d.status = true →
      (cancelDebate d).1 = d ∧
      (cancelDebate d).2 = .error ("辩论已经" ++ d.status ++ "，无法取消")) ∧
    (isTerminalStatus d.status = false →
      (cancelDebate d).1.status = "failed" ∧
      (cancelDebate d).1.updatedCount = d.updatedCount + 1 ∧
      (cancelDebate d).2 = .ok ()) := by
  constructor <;> intro h <;> simp [cancelDebate, h]

/-- Witness for C7: cancelling an already-completed session fails and
leaves the record untouched; cancelling a fresh (created) session turns
it failed. -/
theorem cancel_terminality_witness :
    ((cancelDebate recCompleted).1 = recCompleted ∧
      (cancelDebate recCompleted).2 =
        .error ("辩论已经" ++ recCompleted.status ++ "，无法取消")) ∧
    ((cancelDebate newDebateRecord).1.status = "failed" ∧
      (cancelDebate newDebateRecord).1.updatedCount = newDebateRecord.updatedCount + 1 ∧
      (cancelDebate newDebateRecord).2 = .ok ()) :=
  ⟨(cancel_terminality recCompleted).1 (by decide),
   (cancel_terminality newDebateRecord).2 (by decide)⟩

/-! ## Claim C4 -/

/-- Counterexample to claim C4 as stated: on a reply that is valid JSON
but contains a json-labelled fence inside a string value, the code
extracts the fence's inner content `"b"` and, when that fails all parse
attempts, returns the degraded result carrying `"b"` — it never falls
back to parsing the raw text, whereas the claim's cascade (step (c):
parse the trimmed raw text) would succeed and return the parsed
object. -/
theorem recovery_cascade_cex :
    generateStructuredOutput cexInput = .degraded "b" ∧
    parseJson (pyStrip cexInput) = some cexParsed ∧
    specClaimCascade cexInput = .parsed cexParsed ∧
    generateStructuredOutput cexInput ≠ specClaimCascade cexInput := by
  refine ⟨rfl, rfl, rfl, ?_⟩
  intro h
  rw [show generateStructuredOutput cexInput = .degraded "b" from rfl,
      show specClaimCascade cexInput = .parsed cexParsed from rfl] at h
  exact SynthOutcome.noConfusion h

/-- Claim C4 as amended: the parser selects a working text once — the
inner content of the first json-labelled fenced block if one matches,
else of the first fenced block, else the raw text — and returns the
first successful JSON parse of the stripped working text, of its
BOM/leading-whitespace repair, of its (no-op) quote repair, or of its
newline collapse, in that order; if every parse fails it returns,
without raising, a degraded object (carrying the error marker) whose
`final_conclusion` is the fully-repaired working text. -/
theorem recovery_cascade_amended (s : String) :
    generateStructuredOutput s = amendedCascade s := by
  unfold generateStructuredOutput amendedCascade
  rcases h1 : parseJson (pyStrip (extractBlock s)) with _ | j1 <;>
    simp only [h1, firstSome]
  rcases h2 : parseJson (bomRepair (pyStrip (extractBlock s))) with _ | j2 <;>
    simp only [h2, firstSome]
  rcases h3 : parseJson (quoteRepair (bomRepair (pyStrip (extractBlock s)))) with _ | j3 <;>
    simp only [h3, firstSome]
  rcases h4 : parseJson (collapseRepair (quoteRepair (bomRepair (pyStrip (extractBlock s))))) with
    _ | j4 <;> simp only [h4, firstSome]


/-! ## Claim C2 -/

/-- Claim C2 as amended (turn failure containment): a raised generation
call never escapes a participant turn or a moderator summarization
step.  A participant turn returns the tagged error string with the
exception text truncated to 500 characters (so its length is bounded by
the marker length plus 500), and the round loop still appends that
message to the history and persists it like any other.  The moderator
step returns its own tagged error string carrying the full, untruncated
exception text. -/
theorem turn_failure_containment (e : String) (r : Nat) (a : Agent)
    (as : List Agent) (hist : List MsgData) (store : List DbRow) (O : Oracles)
    (hO : O.turns r a.id (buildHistoryMsgs hist r) = .error e) :
    getAgentResponse (.error e) = turnErrMark ++ pyTake e 500 ∧
    (getAgentResponse (.error e)).length ≤ turnErrMark.length + 500 ∧
    moderatorSummary (.error e) = modErrMark ++ e ∧
    (∃ m : MsgData,
      m.response = turnErrMark ++ pyTake e 500 ∧
      (runTurns O r (a :: as) hist store).2.1.head? = some m ∧
      m ∈ (runTurns O r (a :: as) hist store).1 ∧
      (∃ row : DbRow, row.content = m.response ∧
        (runTurns O r (a :: as) hist store).2.2.2.head? = some (Event.save row))) ∧
    (∀ (cfg : RunCfg) (mod : Agent), cfg.moderator = some mod →
      ∀ (O2 : Oracles) (hist2 : List MsgData) (store2 : List DbRow),
        O2.mods r (runTurns O2 r cfg.agents hist2 store2).2.1 = .error e →
        ∃ mm : MsgData, mm.response = modErrMark ++ e ∧
          mm ∈ (roundBlock cfg O2 r hist2 store2).1 ∧
          ∃ row : DbRow, row.content = mm.response ∧
            Event.save row ∈ (roundBlock cfg O2 r hist2 store2).2.2) := by
  refine ⟨rfl, ?_, rfl, ?_, ?_⟩
  · have htake : (pyTake e 500).length ≤ 500 := by
      show (e.data.take 500).length ≤ 500
      exact List.length_take_le 500 e.data
    calc (getAgentResponse (.error e)).length
        = turnErrMark.length + (pyTake e 500).length := by
          rw [show getAgentResponse (.error e) = turnErrMark ++ pyTake e 500 from rfl,
            String.length_append]
      _ ≤ turnErrMark.length + 500 := by omega
  · refine ⟨⟨a.name, a.id, a.role, r,
      getAgentResponse (O.turns r a.id (buildHistoryMsgs hist r)), hist.length⟩,
      ?_, ?_, ?_, ?_⟩
    · show getAgentResponse (O.turns r a.id (buildHistoryMsgs hist r)) = _
      rw [hO]
      rfl
    · simp [runTurns]
    · rw [runTurns_hist]
      simp [runTurns]
    · refine ⟨⟨a.id, a.name, a.role, r,
        getAgentResponse (O.turns r a.id (buildHistoryMsgs hist r)), hist.length⟩,
        rfl, ?_⟩
      simp [runTurns]
  · intro cfg mod hmod O2 hist2 store2 hO2
    refine ⟨⟨mod.name, mod.id, "moderator", r,
      moderatorSummary (O2.mods r (runTurns O2 r cfg.agents hist2 store2).2.1),
      (runTurns O2 r cfg.agents hist2 store2).1.length⟩, ?_, ?_, ?_⟩
    · show moderatorSummary (O2.mods r (runTurns O2 r cfg.agents hist2 store2).2.1) = _
      rw [hO2]
      rfl
    · simp only [roundBlock, hmod]
      exact List.mem_append_right _ (List.mem_singleton.mpr rfl)
    · refine ⟨⟨mod.id, mod.name, "moderator", r,
        moderatorSummary (O2.mods r (runTurns O2 r cfg.agents hist2 store2).2.1),
        (runTurns O2 r cfg.agents hist2 store2).1.length⟩, rfl, ?_⟩
      simp only [roundBlock, hmod]
      exact List.mem_cons_of_mem _ (List.mem_append_right _ (List.mem_singleton.mpr rfl))

/-- Witness for C2 (amended) at concrete inputs: the error paths of a
participant turn and of the moderator step at a concrete failing
oracle. -/
theorem turn_failure_containment_witness :
    getAgentResponse (.error "boom") = turnErrMark ++ pyTake "boom" 500 ∧
    moderatorSummary (.error "boom") = modErrMark ++ "boom" := by
  have h := turn_failure_containment "boom" 1 agentA [] [] []
    { turns := fun _ _ _ => .error "boom", mods := fun _ _ => .ok (.otherR "s"),
      saves := fun _ => .ok () } rfl
  exact ⟨h.1, h.2.2.1⟩

/-- Counterexample to C2 as stated: the moderator step's error message
is not truncated — at a 501-character exception text the returned
content is the marker plus all 501 characters, strictly longer than the
marker plus the 500-character truncation the claim describes. -/
theorem turn_failure_containment_cex :
    moderatorSummary (.error longExc) ≠ modErrMark ++ pyTake longExc 500 ∧
    modErrMark.length + 500 < (moderatorSummary (.error longExc)).length := by
  have h1 : longExc.length = 501 := by
    show (List.replicate 501 'x').length = 501
    rw [List.length_replicate]
  have h2 : (pyTake longExc 500).length = 500 := by
    show ((List.replicate 501 'x').take 500).length = 500
    rw [List.take_replicate, List.length_replicate]
    omega
  constructor
  · intro h
    have hlen := congrArg String.length h
    rw [show moderatorSummary (.error longExc) = modErrMark ++ longExc from rfl] at hlen
    rw [String.length_append, String.length_append] at hlen
    omega
  · rw [show moderatorSummary (.error longExc) = modErrMark ++ longExc from rfl]
    rw [String.length_append]
    omega

/-! ## Claim C6 -/

/-- Claim C6 (validation gating): every configuration with a duplicated
participant id list, fewer than 2 or more than 8 participants, a
moderator id among the participant ids, rounds outside [1,10], or an
empty topic is rejected by the request validation with a validation
error before any session is created — the session store is unchanged
and the operation returns the error. -/
theorem validation_gating (r : StartRequest) (store : List DebateRecord)
    (h : badStartConfig r) :
    (∃ e, validateStartRequest r = .error e) ∧
    (apiStartDebate r store).1 = store ∧
    (∃ e, (apiStartDebate r store).2 = .error e) := by
  have hval : ∃ e, validateStartRequest r = .error e := by
    unfold validateStartRequest
    split_ifs with h1 h2 h3 h4 h5 h6 h7
    any_goals exact ⟨_, rfl⟩
    exfalso
    have hnodup : r.agent_ids.Nodup := by
      have hlen : r.agent_ids.dedup.length = r.agent_ids.length := by omega
      have heq := List.Sublist.eq_of_length (List.dedup_sublist r.agent_ids) hlen
      rw [← heq]
      exact List.nodup_dedup r.agent_ids
    have htopic : r.topic ≠ "" := by
      intro hempty
      rw [hempty] at h1
      simp at h1
    rcases h with h | h | h | h | h | h | h
    · exact h hnodup
    · omega
    · omega
    · exact h5 h
    · omega
    · omega
    · exact htopic h
  obtain ⟨e, he⟩ := hval
  refine ⟨⟨e, he⟩, ?_, ⟨e, ?_⟩⟩ <;> simp [apiStartDebate, he]

/-- Witness for C6: a request with a duplicated participant id is
rejected and creates no session. -/
theorem validation_gating_witness :
    (∃ e, validateStartRequest reqDup = .error e) ∧
    (apiStartDebate reqDup []).1 = [] ∧
    (∃ e, (apiStartDebate reqDup []).2 = .error e) :=
  validation_gating reqDup [] (Or.inl (by decide))

/-! ## Claim C10 -/

/-- The participant loop's history, new-message list and events do not
depend on the save outcomes (nor on the incoming store). -/
theorem runTurns_indep (O O' : Oracles) (hturns : O.turns = O'.turns) (r : Nat) :
    ∀ (as : List Agent) (h : List MsgData) (s0 s1 : List DbRow),
      (runTurns O r as h s0).1 = (runTurns O' r as h s1).1 ∧
      (runTurns O r as h s0).2.1 = (runTurns O' r as h s1).2.1 ∧
      (runTurns O r as h s0).2.2.2 = (runTurns O' r as h s1).2.2.2 := by
  intro as
  induction as with
  | nil => intro h s0 s1; exact ⟨rfl, rfl, rfl⟩
  | cons a rest ih =>
    intro h s0 s1
    simp only [runTurns, hturns]
    refine ⟨(ih _ _ _).1, ?_, ?_⟩
    · rw [(ih _ _ _).2.1]
    · rw [(ih _ _ _).2.2]

/-- One round's history and events do not depend on the save outcomes. -/
theorem roundBlock_indep (cfg : RunCfg) (O O' : Oracles)
    (hturns : O.turns = O'.turns) (hmods : O.mods = O'.mods) (r : Nat)
    (hist : List MsgData) (s0 s1 : List DbRow) :
    (roundBlock cfg O r hist s0).1 = (roundBlock cfg O' r hist s1).1 ∧
    (roundBlock cfg O r hist s0).2.2 = (roundBlock cfg O' r hist s1).2.2 := by
  obtain ⟨e1, e2, e3⟩ := runTurns_indep O O' hturns r cfg.agents hist s0 s1
  cases hmod : cfg.moderator with
  | none =>
    simp only [roundBlock, hmod]
    exact ⟨e1, by rw [e3]⟩
  | some mod =>
    simp only [roundBlock, hmod, hmods]
    constructor
    · rw [e1, e2]
    · rw [e2, e3, e1]

/-- The whole round loop's history and events do not depend on the save
outcomes. -/
theorem runFrom_indep (cfg : RunCfg) (O O' : Oracles)
    (hturns : O.turns = O'.turns) (hmods : O.mods = O'.mods) :
    ∀ (fuel r : Nat) (hist : List MsgData) (s0 s1 : List DbRow),
      (runFrom cfg O r fuel hist s0).1 = (runFrom cfg O' r fuel hist s1).1 ∧
      (runFrom cfg O r fuel hist s0).2.2 = (runFrom cfg O' r fuel hist s1).2.2 := by
  intro fuel
  induction fuel with
  | zero => intro r hist s0 s1; exact ⟨rfl, rfl⟩
  | succ n ih =>
    intro r hist s0 s1
    obtain ⟨eb1, eb2⟩ := roundBlock_indep cfg O O' hturns hmods r hist s0 s1
    simp only [runFrom]
    constructor
    · rw [eb1]
      exact (ih _ _ _ _).1
    · rw [eb2, eb1]
      rw [(ih _ _ _ _).2]

/-- Claim C10 (message persistence never aborts a session):
`save_debate_message` returns normally on every database outcome.  On a
database error the transaction is rolled back — the persisted table is
unchanged, so the message is silently absent from the persisted history
— and the returned (unpersisted) message object carries the
error-tagged content; on success the row is appended.  The round loop's
behaviour — the conversation history it builds and the sink calls it
makes — does not depend on the save outcomes at all, so a persistence
failure on the append-message path aborts neither the round nor the
session and triggers no status change. -/
theorem message_persistence_containment (e : String) (store : List DbRow)
    (row : DbRow) (cfg : RunCfg) (O O' : Oracles)
    (hturns : O.turns = O'.turns) (hmods : O.mods = O'.mods) :
    (saveDebateMessage (.error e) store row).1 = store ∧
    (saveDebateMessage (.error e) store row).2.content = saveErrMark ++ e ∧
    (saveDebateMessage (.ok ()) store row).1 = store ++ [row] ∧
    (runDebateRounds cfg O).1 = (runDebateRounds cfg O').1 ∧
    (runDebateRounds cfg O).2.2 = (runDebateRounds cfg O').2.2 := by
  obtain ⟨i1, i2⟩ := runFrom_indep cfg O O' hturns hmods cfg.rounds 1 [] [] []
  exact ⟨rfl, rfl, rfl, i1, i2⟩

/-- Witness for C10: a failed save leaves the table unchanged, and with
identical generation oracles a run whose saves all succeed and a run
whose saves all fail build the same conversation history. -/
theorem message_persistence_containment_witness :
    (saveDebateMessage (.error "db down") []
      ⟨"a1", "甲分析師", "pro", 1, "觀點", 0⟩).1 = [] ∧
    (runDebateRounds cfgOne oraclesOk).1 = (runDebateRounds cfgOne oraclesSaveFail).1 := by
  have h := message_persistence_containment "db down" []
    ⟨"a1", "甲分析師", "pro", 1, "觀點", 0⟩ cfgOne oraclesOk oraclesSaveFail rfl rfl
  exact ⟨h.1, h.2.2.2.1⟩

/-! ## Claim C3 -/

/-- `generate_conclusion` always returns a dictionary with exactly the
six conclusion keys. -/
theorem generateConclusion_keys (synth : Except String Json) :
    objKeys (generateConclusion synth) = sixKeys := by
  rcases synth with e | j
  · rfl
  · rcases j with _ | b | n | s | elems | kvs <;> rfl

/-- Every one of the six keys has a value in `generate_conclusion`'s
result. -/
theorem generateConclusion_lookup_isSome (synth : Except String Json) :
    ∀ k ∈ sixKeys, (objLookup (generateConclusion synth) k).isSome = true := by
  intro k hk
  have hmem : k ∈ objKeys (generateConclusion synth) := by
    rw [generateConclusion_keys]
    exact hk
  rcases hcase : generateConclusion synth with _ | _ | _ | _ | _ | kvs2
  all_goals rw [hcase] at hmem
  all_goals simp only [objKeys, List.not_mem_nil] at hmem
  exact lookupJ_isSome kvs2 k hmem

/-- The success path of `run_debate` commits status "completed",
progress 100 and all six conclusion columns together. -/
theorem runDebateOrch_success_cols (synth : Except String Json) (rec : DebateRecord) :
    (runDebateOrch (.success synth) rec).status = "completed" ∧
    (runDebateOrch (.success synth) rec).progress = 100 ∧
    conclusionColsSome (runDebateOrch (.success synth) rec) := by
  refine ⟨rfl, rfl, ?_, ?_, ?_, ?_, ?_, ?_⟩
  · exact generateConclusion_lookup_isSome synth "final_conclusion" (by simp [sixKeys])
  all_goals simp [runDebateOrch, applyConclusion]

/-- Claim C3 (conclusion totality): whatever the structured-output call
produced — a parsed dict, a non-dict JSON value (on which `.get` raises
and is caught), or a raised generation failure — `generate_conclusion`
returns a dictionary with exactly the six conclusion keys; a key
missing from a parsed dict is filled with its per-field default
(placeholder string, 0.0, empty lists, empty mapping); and a session
that completes successfully has all six conclusion columns written
together (with status "completed" and progress 100, in one commit). -/
theorem conclusion_totality (synth : Except String Json) :
    objKeys (generateConclusion synth) = sixKeys ∧
    (∀ kvs, synth = .ok (.obj kvs) →
      ∀ k ∈ sixKeys, lookupJ kvs k = none →
        objLookup (generateConclusion synth) k = some (conclusionDefault k)) ∧
    (∀ rec : DebateRecord,
      (runDebateOrch (.success synth) rec).status = "completed" ∧
      (runDebateOrch (.success synth) rec).progress = 100 ∧
      conclusionColsSome (runDebateOrch (.success synth) rec)) := by
  refine ⟨generateConclusion_keys synth, ?_, runDebateOrch_success_cols synth⟩
  rintro kvs rfl k hk hnone
  simp only [sixKeys, List.mem_cons, List.not_mem_nil, or_false] at hk
  rcases hk with rfl | rfl | rfl | rfl | rfl | rfl <;>
    simp [generateConclusion, objLookup, lookupJ, jGetD, hnone, conclusionDefault]

/-- Witness for C3: at a parsed dict missing every key but
`final_conclusion`, the other five fields take their defaults and the
keys are the six conclusion keys. -/
theorem conclusion_totality_witness :
    objKeys (generateConclusion (.ok (.obj [("final_conclusion", .str "結論")]))) = sixKeys ∧
    objLookup (generateConclusion (.ok (.obj [("final_conclusion", .str "結論")])))
      "confidence_score" = some (conclusionDefault "confidence_score") := by
  have h := conclusion_totality (.ok (.obj [("final_conclusion", .str "結論")]))
  exact ⟨h.1, h.2.1 _ rfl "confidence_score" (by simp [sixKeys]) rfl⟩

/-! ## Claim C8 -/

/-- Claim C8 (failure atomicity): starting from a freshly created
session record, if an uncaught exception escapes the round loop or
conclusion synthesis inside `run_debate`, the session ends with status
"failed" and a refreshed `updated_at`, and none of the six conclusion
columns has been written; on the success path the session ends
"completed" with all six columns written together.  Hence a Failed
session never carries a partially populated set of conclusion columns,
and a Completed session always carries all of them. -/
theorem failure_atomicity (b : BodyOutcome) (rec : DebateRecord)
    (hfresh : conclusionColsNone rec) :
    ((runDebateOrch b rec).status = "failed" → conclusionColsNone (runDebateOrch b rec)) ∧
    ((runDebateOrch b rec).status = "completed" → conclusionColsSome (runDebateOrch b rec)) ∧
    (∀ e, b = .raised e →
      (runDebateOrch b rec).status = "failed" ∧
      rec.updatedCount < (runDebateOrch b rec).updatedCount ∧
      conclusionColsNone (runDebateOrch b rec)) ∧
    (∀ s, b = .success s →
      (runDebateOrch b rec).status = "completed" ∧
      (runDebateOrch b rec).progress = 100 ∧
      conclusionColsSome (runDebateOrch b rec)) := by
  cases b with
  | raised e =>
    have hcols : conclusionColsNone (runDebateOrch (.raised e) rec) := by
      obtain ⟨c1, c2, c3, c4, c5, c6⟩ := hfresh
      exact ⟨c1, c2, c3, c4, c5, c6⟩
    refine ⟨fun _ => hcols, fun hc => ?_, ?_, ?_⟩
    · exact absurd hc (by simp [runDebateOrch])
    · intro e2 he
      refine ⟨rfl, ?_, hcols⟩
      show rec.updatedCount < rec.updatedCount + 1 + 1
      omega
    · intro s hs
      exact absurd hs (by simp)
  | success synth =>
    have hsome := runDebateOrch_success_cols synth rec
    refine ⟨fun hf => ?_, fun _ => hsome.2.2, ?_, ?_⟩
    · exact absurd hf (by simp [runDebateOrch, applyConclusion])
    · intro e2 he
      exact absurd he (by simp)
    · intro s hs
      exact ⟨hsome.1, hsome.2.1, hsome.2.2⟩

/-- Witness for C8: from a fresh record, a raised body leaves the six
conclusion columns unwritten with status "failed"; a successful body
writes them all with status "completed". -/
theorem failure_atomicity_witness :
    ((runDebateOrch (.raised "boom") newDebateRecord).status = "failed" ∧
      conclusionColsNone (runDebateOrch (.raised "boom") newDebateRecord)) ∧
    ((runDebateOrch (.success (.error "boom")) newDebateRecord).status = "completed" ∧
      conclusionColsSome (runDebateOrch (.success (.error "boom")) newDebateRecord)) := by
  have h1 := failure_atomicity (.raised "boom") newDebateRecord
    (by simp [newDebateRecord, conclusionColsNone])
  have h2 := failure_atomicity (.success (.error "boom")) newDebateRecord
    (by simp [newDebateRecord, conclusionColsNone])
  obtain ⟨hs, _, hc⟩ := h1.2.2.1 "boom" rfl
  obtain ⟨hs2, _, hc2⟩ := h2.2.2.2 (.error "boom") rfl
  exact ⟨⟨hs, hc⟩, ⟨hs2, hc2⟩⟩

/-! ## Claims C5 and C9: structure of the round-loop event trace -/

/-- One round's events are its progress push first, followed only by
message saves. -/
theorem roundBlock_events (cfg : RunCfg) (O : Oracles) (r : Nat)
    (hist : List MsgData) (store : List DbRow) :
    ∃ rest, (roundBlock cfg O r hist store).2.2 =
      Event.progress ((r : ℚ) / (cfg.rounds : ℚ) * 90) :: rest ∧
      ∀ e ∈ rest, ∃ row, e = Event.save row := by
  cases hmod : cfg.moderator with
  | none =>
    refine ⟨(runTurns O r cfg.agents hist store).2.2.2, ?_, ?_⟩
    · simp only [roundBlock, hmod]
    · exact runTurns_saves O r cfg.agents hist store
  | some mod =>
    simp only [roundBlock, hmod]
    refine ⟨_, rfl, ?_⟩
    intro e he
    rw [List.mem_append] at he
    rcases he with he | he
    · exact runTurns_saves O r cfg.agents hist store e he
    · rw [List.mem_singleton] at he
      exact ⟨_, he⟩

/-- The round loop's event trace decomposes into one block per round:
block `k` (0-based, executing round `r + k`) starts with that round's
progress push and otherwise contains only message saves. -/
theorem runFrom_blocks (cfg : RunCfg) (O : Oracles) :
    ∀ (fuel r : Nat) (hist : List MsgData) (store : List DbRow),
      ∃ blocks : List (List Event),
        (runFrom cfg O r fuel hist store).2.2 = blocks.flatten ∧
        blocks.length = fuel ∧
        ∀ k, k < fuel → ∃ rest, blocks.get? k =
          some (Event.progress (((r + k : Nat) : ℚ) / (cfg.rounds : ℚ) * 90) :: rest) ∧
          ∀ e ∈ rest, ∃ row, e = Event.save row := by
  intro fuel
  induction fuel with
  | zero =>
    intro r hist store
    exact ⟨[], rfl, rfl, fun k hk => absurd hk (by omega)⟩
  | succ n ih =>
    intro r hist store
    obtain ⟨rest0, hb, hbs⟩ := roundBlock_events cfg O r hist store
    obtain ⟨blocks, h1, h2, h3⟩ := ih (r + 1)
      (roundBlock cfg O r hist store).1 (roundBlock cfg O r hist store).2.1
    refine ⟨(roundBlock cfg O r hist store).2.2 :: blocks, ?_, ?_, ?_⟩
    · simp only [runFrom, List.flatten_cons]
      rw [h1]
    · simp [h2]
    · intro k hk
      cases k with
      | zero =>
        refine ⟨rest0, ?_, hbs⟩
        rw [show r + 0 = r from rfl]
        simpa using hb
      | succ k2 =>
        obtain ⟨rest2, hg, hgs⟩ := h3 k2 (by omega)
        refine ⟨rest2, ?_, hgs⟩
        rw [show r + (k2 + 1) = r + 1 + k2 from by omega]
        simpa using hg

/-- The progress values pushed by one round. -/
theorem roundBlock_progressValues (cfg : RunCfg) (O : Oracles) (r : Nat)
    (hist : List MsgData) (store : List DbRow) :
    progressValues (roundBlock cfg O r hist store).2.2 =
      [(r : ℚ) / (cfg.rounds : ℚ) * 90] := by
  obtain ⟨rest, hb, hbs⟩ := roundBlock_events cfg O r hist store
  rw [hb]
  simp only [progressValues, List.filterMap_cons]
  rw [List.filterMap_eq_nil_iff.mpr ?_]
  · intro e he
    obtain ⟨row, rfl⟩ := hbs e he
    rfl

/-- The progress values pushed by the round loop, in order: round
`r + i` pushes `((r + i) / rounds) * 90`. -/
theorem runFrom_progressValues (cfg : RunCfg) (O : Oracles) :
    ∀ (fuel r : Nat) (hist : List MsgData) (store : List DbRow),
      progressValues (runFrom cfg O r fuel hist store).2.2 =
        (List.range fuel).map (fun i => ((r + i : Nat) : ℚ) / (cfg.rounds : ℚ) * 90) := by
  intro fuel
  induction fuel with
  | zero => intro r hist store; rfl
  | succ n ih =>
    intro r hist store
    simp only [runFrom]
    rw [show progressValues ((roundBlock cfg O r hist store).2.2 ++
        (runFrom cfg O (r + 1) n (roundBlock cfg O r hist store).1
          (roundBlock cfg O r hist store).2.1).2.2) =
      progressValues (roundBlock cfg O r hist store).2.2 ++
      progressValues (runFrom cfg O (r + 1) n (roundBlock cfg O r hist store).1
          (roundBlock cfg O r hist store).2.1).2.2 from List.filterMap_append _ _ _]
    rw [roundBlock_progressValues, ih]
    rw [List.range_succ_eq_map, List.map_cons, List.map_map]
    refine List.cons_eq_cons.mpr ⟨by rw [Nat.add_zero], ?_⟩
    refine List.map_congr_left ?_
    intro i hi
    show ((r + 1 + i : Nat) : ℚ) / (cfg.rounds : ℚ) * 90 = _
    rw [show r + 1 + i = r + (i + 1) from by omega]
    rfl

/-- Every event emitted by the round loop is a progress push or a
message save. -/
theorem runFrom_kinds (cfg : RunCfg) (O : Oracles) :
    ∀ (fuel r : Nat) (hist : List MsgData) (store : List DbRow),
      ∀ e ∈ (runFrom cfg O r fuel hist store).2.2,
        (∃ v, e = Event.progress v) ∨ (∃ row, e = Event.save row) := by
  intro fuel
  induction fuel with
  | zero => intro r hist store e he; exact absurd he (by simp [runFrom])
  | succ n ih =>
    intro r hist store e he
    simp only [runFrom, List.mem_append] at he
    rcases he with he | he
    · obtain ⟨rest, hb, hbs⟩ := roundBlock_events cfg O r hist store
      rw [hb] at he
      rcases List.mem_cons.mp he with rfl | he2
      · exact Or.inl ⟨_, rfl⟩
      · exact Or.inr (hbs e he2)
    · exact ih _ _ _ e he

/-- Every progress value the round loop pushes is at most 90. -/
theorem runDebateRounds_progress_le (cfg : RunCfg) (O : Oracles) (v : ℚ)
    (hv : Event.progress v ∈ (runDebateRounds cfg O).2.2) : v ≤ 90 := by
  have hmem : v ∈ progressValues (runDebateRounds cfg O).2.2 :=
    List.mem_filterMap.mpr ⟨Event.progress v, hv, rfl⟩
  rw [show (runDebateRounds cfg O).2.2 = (runFrom cfg O 1 cfg.rounds [] []).2.2 from rfl,
    runFrom_progressValues] at hmem
  rw [List.mem_map] at hmem
  obtain ⟨i, hi, rfl⟩ := hmem
  rw [List.mem_range] at hi
  have hle : ((1 + i : Nat) : ℚ) ≤ (cfg.rounds : ℚ) := by
    have : 1 + i ≤ cfg.rounds := by omega
    exact_mod_cast this
  have hpos : (0 : ℚ) < (cfg.rounds : ℚ) := by
    have : 0 < cfg.rounds := by omega
    exact_mod_cast this
  calc ((1 + i : Nat) : ℚ) / (cfg.rounds : ℚ) * 90
      ≤ 1 * 90 := by
        apply mul_le_mul_of_nonneg_right _ (by norm_num)
        exact (div_le_one hpos).mpr hle
    _ = 90 := by norm_num

/-- Folding sink calls that cannot raise the stored progress above 90
keeps the stored progress at most 90. -/
theorem foldl_keepsLow (evs : List Event) :
    (∀ e ∈ evs, eventKeepsLow e) →
    ∀ st : ObsState, st.progress ≤ 90 →
      (evs.foldl applyEvent st).progress ≤ 90 := by
  induction evs with
  | nil => intro _ st hst; exact hst
  | cons e rest ih =>
    intro h st hst
    rw [List.foldl_cons]
    refine ih (fun e2 he2 => h e2 (List.mem_cons_of_mem e he2)) _ ?_
    have he := h e (List.mem_cons_self e rest)
    cases e with
    | progress v =>
      show clampProgress v ≤ 90
      exact le_trans (min_le_left _ _) (max_le he (by norm_num))
    | save row => exact hst
    | statusSet s => exact hst
    | complete => exact absurd he (by simp [eventKeepsLow])

/-- Every event in the "low" part of a full trace (the initial
"running" status write followed by any prefix of the round events)
keeps the stored progress at most 90. -/
theorem fullTrace_low_keepsLow (cfg : RunCfg) (O : Oracles) (n : Nat) :
    ∀ e ∈ Event.statusSet "running" :: ((runDebateRounds cfg O).2.2.take n),
      eventKeepsLow e := by
  intro e he
  rcases List.mem_cons.mp he with rfl | he2
  · trivial
  · have he3 := List.take_subset n _ he2
    rcases runFrom_kinds cfg O cfg.rounds 1 [] [] e he3 with ⟨v, rfl⟩ | ⟨row, rfl⟩
    · exact runDebateRounds_progress_le cfg O v he3
    · trivial

/-- Over a trace consisting of progress-bounded events followed by one
final commit (completion, or the failure status write), any observable
state with progress 100 has status "completed". -/
theorem lowlast_progress100 (low : List Event) (last : Event)
    (hlow : ∀ e ∈ low, eventKeepsLow e)
    (hlast : last = Event.complete ∨ last = Event.statusSet "failed") (n : Nat) :
    (foldObs ((low ++ [last]).take n)).progress = 100 →
    (foldObs ((low ++ [last]).take n)).status = "completed" := by
  intro h100
  by_cases hn : n ≤ low.length
  · exfalso
    rw [List.take_append_eq_append_take, Nat.sub_eq_zero_of_le hn,
      List.take_zero, List.append_nil] at h100
    have hbound : (foldObs (low.take n)).progress ≤ 90 := by
      refine foldl_keepsLow (low.take n) ?_ _ (by norm_num)
      intro e he
      exact hlow e (List.take_subset n low he)
    rw [show foldObs (low.take n) =
      (low.take n).foldl applyEvent { progress := 0, status := "created" } from rfl] at hbound
    rw [show foldObs (low.take n) =
      (low.take n).foldl applyEvent { progress := 0, status := "created" } from rfl] at h100
    rw [h100] at hbound
    norm_num at hbound
  · have hfull : (low ++ [last]).take n = low ++ [last] := by
      refine List.take_of_length_le ?_
      rw [List.length_append, List.length_singleton]
      omega
    rw [hfull] at h100 ⊢
    rw [show foldObs (low ++ [last]) =
      applyEvent (low.foldl applyEvent { progress := 0, status := "created" }) last from by
        simp [foldObs, List.foldl_append]] at h100 ⊢
    rcases hlast with rfl | rfl
    · rfl
    · exfalso
      have hbound : (low.foldl applyEvent
          { progress := 0, status := "created" } : ObsState).progress ≤ 90 :=
        foldl_keepsLow low hlow _ (by norm_num)
      rw [show (applyEvent (low.foldl applyEvent { progress := 0, status := "created" })
        (Event.statusSet "failed")).progress =
        (low.foldl applyEvent { progress := 0, status := "created" } : ObsState).progress
        from rfl] at h100
      rw [h100] at hbound
      norm_num at hbound

/-- In every run — completed or cut off by a failure at any point — the
observable progress equals 100 only when the status is "completed". -/
theorem fullTrace_progress100 (cfg : RunCfg) (O : Oracles) (failCut : Option Nat) (n : Nat) :
    (foldObs ((fullTrace cfg O failCut).take n)).progress = 100 →
    (foldObs ((fullTrace cfg O failCut).take n)).status = "completed" := by
  cases failCut with
  | none =>
    have hshape : fullTrace cfg O none =
        (Event.statusSet "running" :: (runDebateRounds cfg O).2.2) ++ [Event.complete] := by
      simp [fullTrace]
    rw [hshape]
    refine lowlast_progress100 _ _ ?_ (Or.inl rfl) n
    have h := fullTrace_low_keepsLow cfg O (runDebateRounds cfg O).2.2.length
    rw [List.take_length] at h
    exact h
  | some m =>
    have hshape : fullTrace cfg O (some m) =
        (Event.statusSet "running" :: (runDebateRounds cfg O).2.2.take m) ++
          [Event.statusSet "failed"] := by
      simp [fullTrace]
    rw [hshape]
    exact lowlast_progress100 _ _ (fullTrace_low_keepsLow cfg O m) (Or.inr rfl) n

/-- Claim C5 (progress accounting): the round loop pushes exactly one
progress value per round, in order, and the value pushed for round `k`
(1-based) is `(k / rounds) * 90`, which the progress-update operation's
clamp into [0, 100] leaves unchanged; and in any run — successful or
cut off by a failure anywhere — the observable progress equals 100 only
together with status "completed" (written by the completion commit
after conclusion synthesis). -/
theorem progress_accounting (cfg : RunCfg) (O : Oracles) (k : Nat)
    (hk1 : 1 ≤ k) (hk2 : k ≤ cfg.rounds) :
    progressValues (runDebateRounds cfg O).2.2 =
      (List.range cfg.rounds).map (fun i => ((1 + i : Nat) : ℚ) / (cfg.rounds : ℚ) * 90) ∧
    (progressValues (runDebateRounds cfg O).2.2).get? (k - 1) =
      some ((k : ℚ) / (cfg.rounds : ℚ) * 90) ∧
    clampProgress ((k : ℚ) / (cfg.rounds : ℚ) * 90) = (k : ℚ) / (cfg.rounds : ℚ) * 90 ∧
    (∀ failCut : Option Nat, ∀ n : Nat,
      (foldObs ((fullTrace cfg O failCut).take n)).progress = 100 →
      (foldObs ((fullTrace cfg O failCut).take n)).status = "completed") := by
  have hvals : progressValues (runDebateRounds cfg O).2.2 =
      (List.range cfg.rounds).map (fun i => ((1 + i : Nat) : ℚ) / (cfg.rounds : ℚ) * 90) :=
    runFrom_progressValues cfg O cfg.rounds 1 [] []
  have hpos : (0 : ℚ) < (cfg.rounds : ℚ) := by
    have : 0 < cfg.rounds := by omega
    exact_mod_cast this
  have hkR : ((k : ℚ)) ≤ (cfg.rounds : ℚ) := by exact_mod_cast hk2
  have hk0 : (0 : ℚ) ≤ (k : ℚ) := by positivity
  have hv90 : (k : ℚ) / (cfg.rounds : ℚ) * 90 ≤ 90 := by
    calc (k : ℚ) / (cfg.rounds : ℚ) * 90 ≤ 1 * 90 := by
          apply mul_le_mul_of_nonneg_right _ (by norm_num)
          exact (div_le_one hpos).mpr hkR
      _ = 90 := by norm_num
  have hv0 : (0 : ℚ) ≤ (k : ℚ) / (cfg.rounds : ℚ) * 90 := by positivity
  refine ⟨hvals, ?_, ?_, fullTrace_progress100 cfg O⟩
  · rw [hvals, List.get?_eq_getElem?, List.getElem?_map, List.getElem?_range (by omega)]
    simp only [Option.map_some']
    rw [show 1 + (k - 1) = k from by omega]
  · unfold clampProgress
    rw [max_eq_left hv0, min_eq_left (le_trans hv90 (by norm_num))]

/-- Witness for C5 at a concrete two-round run: the pushed progress
values are 45 and 90, the round-2 value is 90 and survives the clamp. -/
theorem progress_accounting_witness :
    progressValues (runDebateRounds cfgTwo oraclesOk).2.2 = [45, 90] ∧
    (progressValues (runDebateRounds cfgTwo oraclesOk).2.2).get? 1 =
      some ((2 : ℚ) / ((cfgTwo.rounds : Nat) : ℚ) * 90) ∧
    clampProgress ((2 : ℚ) / ((cfgTwo.rounds : Nat) : ℚ) * 90) =
      (2 : ℚ) / ((cfgTwo.rounds : Nat) : ℚ) * 90 := by
  have h := progress_accounting cfgTwo oraclesOk 2 (by decide) (by decide)
  refine ⟨?_, h.2.1, h.2.2.1⟩
  rw [h.1]
  norm_num [cfgTwo, List.range_succ]

/-- Counterexample to claim C9 as stated: in a concrete 1-round,
1-participant run, the progress push for round 1 is the FIRST sink
call, before the round's participant message is saved — so it is not
the case that every progress push comes after the saves of its round. -/
theorem progress_update_timing_cex :
    ¬ (∀ i j : Nat, ∀ v : ℚ, ∀ row : DbRow,
        (runDebateRounds cfgOne oraclesOk).2.2.get? i = some (Event.progress v) →
        (runDebateRounds cfgOne oraclesOk).2.2.get? j = some (Event.save row) →
        j < i) := by
  intro h
  exact absurd (h 0 1 _ _ rfl rfl) (by omega)

/-- Claim C9 as amended (progress-update timing): the sink-call trace
of the round loop decomposes into one block per round, and each round's
block BEGINS with that round's progress push, followed only by that
round's message saves — i.e. the progress value for round k is pushed
at the start of round k, before (not after) its participant turns are
persisted, and before the moderator step. -/
theorem progress_update_timing (cfg : RunCfg) (O : Oracles) :
    ∃ blocks : List (List Event),
      (runDebateRounds cfg O).2.2 = blocks.flatten ∧
      blocks.length = cfg.rounds ∧
      ∀ k, k < cfg.rounds → ∃ rest, blocks.get? k =
        some (Event.progress (((1 + k : Nat) : ℚ) / (cfg.rounds : ℚ) * 90) :: rest) ∧
        ∀ e ∈ rest, ∃ row, e = Event.save row :=
  runFrom_blocks cfg O cfg.rounds 1 [] []

/-- Witness for C9 (amended) at the concrete 1-round run: the block
list is explicit — the progress push (value 90) first, then the round's
save. -/
theorem progress_update_timing_witness :
    ∃ blocks : List (List Event),
      (runDebateRounds cfgOne oraclesOk).2.2 = blocks.flatten ∧
      blocks.length = cfgOne.rounds ∧
      ∀ k, k < cfgOne.rounds → ∃ rest, blocks.get? k =
        some (Event.progress (((1 + k : Nat) : ℚ) / (cfgOne.rounds : ℚ) * 90) :: rest) ∧
        ∀ e ∈ rest, ∃ row, e = Event.save row :=
  progress_update_timing cfgOne oraclesOk
